import Mathlib

/-!
# SymptomMinder — verification of the spec against the source

Shallow embedding of the SymptomMinder MCP server (Python) in Lean 4.

Source files embedded:
- `src/utils/data_utils.py` (`is_null_value`, `clean_entry`, `ensure_raw_notes`)
- `src/utils/es_utils.py` (`get_jury_counter`, `increment_jury_counter`)
- `src/jury_tools.py` (`call_jury_model`, `llm_jury_compare_notes`)
- `src/tools/symptom_tools.py` (`confirm_and_save_symptom_entry_impl`)
- `src/tools/search_tools.py` (`update_symptom_entry_impl`)
- `src/symptom_schema.py` (`SymptomDetails`/`SymptomEntry` validation)

Modelling conventions:
- Python dict values occurring inside `symptom_details` are modelled by `Val`
  (null / str / int / bool / list-of-str); dicts are association lists
  (`List (String × Val)`) preserving insertion order, as Python dicts do.
- Python `str.strip` is modelled by `pyStrip` (drop whitespace on both ends),
  `str.lower` by `pyLower`, truthiness by `pyTruthy`.
- Elasticsearch is modelled as explicit state (`SaveSt`): the symptom index
  is a list of stored entries (the assigned document id is the position),
  the jury counter document is an `Option Nat`, the jury summary index a
  list of reports.  Network/storage failures are injected through explicit
  boolean "this call succeeds" parameters, and an exception becomes an
  `Except.error` or a failure branch, mirroring each `try/except` in the
  source.
- LLM calls are oracles: the environment supplies each call's outcome as
  `Except String String` (raise with message, or returned text).
- The FastMCP logging context `ctx` is modelled as present (the server
  always passes it), so `ctx.error(...)` never itself raises.
-/

/-- A Python value as it can occur inside the `symptom_details` dict:
`None`, `str`, `int`, `bool`, or `list[str]`. -/
inductive Val where
  | vnull : Val
  | vstr (s : String) : Val
  | vint (n : Int) : Val
  | vbool (b : Bool) : Val
  | vlist (xs : List String) : Val
  deriving DecidableEq, Repr

/-- A Python dict with string keys, in insertion order. -/
abbrev Sd := List (String × Val)

/-- `d.get(k)` / `k in d` for an insertion-ordered dict. -/
def getD : Sd → String → Option Val
  | [], _ => none
  | (k', v) :: m, k => if k' = k then some v else getD m k

/-- `d[k] = v`: overwrite in place if the key exists, else append. -/
def setK : Sd → String → Val → Sd
  | [], k, v => [(k, v)]
  | (k', v') :: m, k, v =>
      if k' = k then (k, v) :: m else (k', v') :: setK m k v

/-- Python `str.strip()` on the character list: drop whitespace from both
ends. -/
def stripL (l : List Char) : List Char :=
  (l.dropWhile Char.isWhitespace).rdropWhile Char.isWhitespace

/-- Python `str.strip()`. -/
def pyStrip (s : String) : String := ⟨stripL s.data⟩

/-- Python `str.lower()` (ASCII case folding suffices for the null tokens). -/
def pyLower (s : String) : String := ⟨s.data.map Char.toLower⟩

/-- `NULL_VALUES = {"none", "null", "n/a", "na", "nil", ""}`
(src/utils/data_utils.py line 7). -/
def NULL_VALUES : List String := ["none", "null", "n/a", "na", "nil", ""]

/-- `is_null_value` (src/utils/data_utils.py lines 10-20): true iff the value
is a string whose stripped, lowered form is a recognised null token. -/
def is_null_value : Val → Bool
  | .vstr s => pyLower (pyStrip s) ∈ NULL_VALUES
  | _ => false

/-- Python truthiness of a `Val`. -/
def pyTruthy : Val → Bool
  | .vnull => false
  | .vstr s => s ≠ ""
  | .vint n => n ≠ 0
  | .vbool b => b
  | .vlist xs => xs ≠ []

/-- Python `str(v)` as used by f-string interpolation. -/
def pyStr : Val → String
  | .vnull => "None"
  | .vstr s => s
  | .vint n => toString n
  | .vbool b => if b then "True" else "False"
  | .vlist xs => toString xs

/-- The replacement `clean_entry` writes for a null-like value at key `k`:
`[]` for the known list field `associated_symptoms`, else `None`
(src/utils/data_utils.py lines 38-43). -/
def replVal (k : String) : Val :=
  if k = "associated_symptoms" then .vlist [] else .vnull

/-- One step of `clean_entry`'s first loop: null-like values are replaced. -/
def cleanVal (k : String) (v : Val) : Val :=
  if is_null_value v then replVal k else v

/-- `clean_entry`'s second step (src/utils/data_utils.py lines 44-51):
coerce `associated_symptoms` to a list if the key is present and the value
is not a list — a bare string becomes a one-element list, `None` becomes
`[]`, anything else is left as is. -/
def coerceAssoc (m : Sd) : Sd :=
  match getD m "associated_symptoms" with
  | some (.vstr s) => setK m "associated_symptoms" (.vlist [s])
  | some .vnull => setK m "associated_symptoms" (.vlist [])
  | _ => m

/-- The body of `clean_entry` applied to a non-empty `symptom_details` dict. -/
def cleanSd (m : Sd) : Sd :=
  coerceAssoc (m.map fun kv => (kv.1, cleanVal kv.1 kv.2))

/-- The `symptom_details` slot of an entry dict: the key can be absent,
present with value `None`, or present with a dict value. -/
inductive SdField where
  | absent : SdField
  | null : SdField
  | dict (m : Sd) : SdField
  deriving DecidableEq, Repr

/-- A draft/normalized entry dict as built by the save tool.  `timestamp`
abstracts pydantic's datetime parsing: `some s` is a parseable timestamp
string, `none` is an absent/None timestamp.  Fields that the normalizer and
validator never inspect (`user_id`, `tags`) are carried opaquely. -/
structure Entry where
  timestamp : Option String
  user_id : Option String
  symptom_details : SdField
  tags : Option (List String)
  deriving DecidableEq, Repr

/-- `clean_entry` (src/utils/data_utils.py lines 23-53): `sd =
entry.get("symptom_details")` is `None` when the key is absent; the cleaning
runs only `if sd:` (a non-empty dict); finally `entry["symptom_details"] =
sd` always writes the key back, so an absent key becomes a `None` value. -/
def clean_entry (e : Entry) : Entry :=
  { e with
    symptom_details :=
      match e.symptom_details with
      | .absent => .null
      | .null => .null
      | .dict m => .dict (if m ≠ [] then cleanSd m else m) }

/-- `sd.get("raw_notes")` is truthy. -/
def rawNotesSet (m : Sd) : Bool :=
  match getD m "raw_notes" with
  | some v => pyTruthy v
  | none => false

/-- The fallback loop of `ensure_raw_notes` (src/utils/data_utils.py lines
71-75): the first field among the candidates that is present, a string, and
non-blank after stripping; yields the stripped value. -/
def fallbackFind (m : Sd) : List String → Option String
  | [] => none
  | f :: fs =>
      match getD m f with
      | some (.vstr s) =>
          if pyStrip s ≠ "" then some (pyStrip s) else fallbackFind m fs
      | _ => fallbackFind m fs

/-- The body of `ensure_raw_notes` applied to the `symptom_details` dict. -/
def ensureSd (m : Sd) : Sd :=
  if rawNotesSet m then m
  else
    match fallbackFind m ["description", "notes", "summary", "context"] with
    | some t => setK m "raw_notes" (.vstr t)
    | none => m

/-- `ensure_raw_notes` (src/utils/data_utils.py lines 56-78): `sd =
entry.get("symptom_details", {})` yields `{}` when the key is absent, but
`sd.get(...)` raises `AttributeError` when the stored value is `None`.  A
raised exception is an `Except.error`. -/
def ensure_raw_notes (e : Entry) : Except String Entry :=
  match e.symptom_details with
  | .absent => .ok { e with symptom_details := .dict (ensureSd []) }
  | .null => .error "AttributeError: NoneType object has no attribute get"
  | .dict m => .ok { e with symptom_details := .dict (ensureSd m) }

/-- The normalization pipeline of the save path
(src/tools/symptom_tools.py lines 141-142): `clean_entry` then
`ensure_raw_notes`. -/
def normalizeEntry (e : Entry) : Except String Entry :=
  ensure_raw_notes (clean_entry e)

/-- Schema validation, `SymptomEntry(**entry)` (src/symptom_schema.py):
`timestamp` is required (datetime parsing abstracted: `some` = parseable),
`symptom_details` is a required dict, `symptom` is a required string that is
non-empty after stripping, `severity` is a required int in `[1, 10]`
(`Field(..., ge=1, le=10)` plus `validate_symptom` / `validate_severity`).
All other fields are optional and unconstrained. -/
def parseOk (e : Entry) : Bool :=
  e.timestamp.isSome &&
    match e.symptom_details with
    | .dict m =>
        (match getD m "symptom" with
         | some (.vstr s) => pyStrip s ≠ ""
         | _ => false) &&
        (match getD m "severity" with
         | some (.vint n) => 1 ≤ n && n ≤ 10
         | _ => false)
    | _ => false

/-- One outcome of `call_jury_model` (src/jury_tools.py lines 68-97). -/
structure JuryOutput where
  model_id : String
  model_label : String
  jury_report : String
  success : Bool
  error : Option String
  deriving DecidableEq, Repr

/-- The jury summary document persisted by `llm_jury_compare_notes`
(src/jury_tools.py lines 128-138); the prompt text is omitted as no claim
inspects it. -/
structure AuditReport where
  event_id : Nat
  jury_models : List String
  jury_outputs : List JuryOutput
  successful_models_count : Nat
  failed_models_count : Nat
  jury_aggregation_model : String
  jury_aggregation : String
  deriving DecidableEq, Repr

/-- The Elasticsearch state visible to the save path: the symptom index
(document id = position in the list), the `global_counter` document of the
jury counter index, and the jury summary index. -/
structure SaveSt where
  records : List Entry
  counter : Option Nat
  summaries : List AuditReport
  deriving DecidableEq, Repr

/-- The state before anything has been written. -/
def freshSt : SaveSt := { records := [], counter := none, summaries := [] }

/-- `get_jury_counter` (src/utils/es_utils.py lines 93-108): any exception
(missing document, or a failed `es.get`, modelled by `getOk = false`) is
swallowed and yields 0. -/
def get_jury_counter (getOk : Bool) (st : SaveSt) : Nat :=
  if getOk then
    match st.counter with
    | some c => c
    | none => 0
  else 0

/-- `increment_jury_counter` (src/utils/es_utils.py lines 111-130): read the
current value (0 on any read failure), write `current + 1` back; if the
write (`es.index`) raises, return 0 and leave the stored counter unchanged. -/
def increment_jury_counter (getOk writeOk : Bool) (st : SaveSt) :
    Nat × SaveSt :=
  let current := get_jury_counter getOk st
  let newCount := current + 1
  if writeOk then (newCount, { st with counter := some newCount })
  else (0, st)

/-- `JURY_MODELS` (src/jury_tools.py lines 34-38). -/
def JURY_MODELS : List (String × String) :=
  [("claude-3-5-sonnet-latest", "Claude 3.5 Sonnet (latest)"),
   ("claude-3-7-sonnet-latest", "Claude 3.7 Sonnet (latest)"),
   ("claude-sonnet-4-20250514", "Claude 4 Sonnet (20250514)")]

/-- `AGGREGATION_MODEL` (src/jury_tools.py line 39). -/
def AGGREGATION_MODEL : String := "claude-sonnet-4-20250514"

/-- `call_jury_model` (src/jury_tools.py lines 68-97) with the model call's
outcome supplied by the oracle: on success the extracted text becomes the
report; on an exception its message is logged and recorded with
`success=False` and `"Error: " + message` substituted as the report.  The
logging context is present, so the call never itself raises. -/
def call_jury_model (outcome : Except String String)
    (model_id model_label : String) : JuryOutput :=
  match outcome with
  | .ok t =>
      { model_id := model_id, model_label := model_label, jury_report := t,
        success := true, error := none }
  | .error msg =>
      { model_id := model_id, model_label := model_label,
        jury_report := "Error: " ++ msg, success := false, error := some msg }

/-- `asyncio.gather(*[call_jury_model(...) for ... in JURY_MODELS])`
(src/jury_tools.py lines 100-102): every panel member is called, and
`gather` returns the outcomes in the panel's declared order regardless of
completion order.  `oracle` gives each member's outcome by position. -/
def gatherJury (panel : List (String × String))
    (oracle : List (Except String String)) : List JuryOutput :=
  (panel.zip oracle).map fun p => call_jury_model p.2 p.1.1 p.1.2

/-- The oracle for one full jury invocation: one outcome per panel member,
the aggregation call's outcome, and whether the summary write succeeds. -/
structure JuryEnv where
  panel : List (Except String String)
  agg : Except String String
  summaryWriteOk : Bool
  deriving Repr

/-- `llm_jury_compare_notes` (src/jury_tools.py lines 43-150): dispatch the
panel, then make the aggregation call; if it (or the summary write) raises,
the outer `except` catches the exception, logs it, and returns a
`{"status": "error"}` dict — the function itself never raises (the logging
context is present).  Only on full success is the report persisted to the
summary index. -/
def llm_jury_compare_notes (env : JuryEnv) (event_id : Nat) (st : SaveSt) :
    String × SaveSt :=
  let jury_outputs := gatherJury JURY_MODELS env.panel
  match env.agg with
  | .error _ => ("error", st)
  | .ok aggText =>
      if env.summaryWriteOk then
        ("jury_completed",
         { st with
           summaries := st.summaries ++
             [{ event_id := event_id,
                jury_models := JURY_MODELS.map Prod.fst,
                jury_outputs := jury_outputs,
                successful_models_count :=
                  (jury_outputs.filter (·.success)).length,
                failed_models_count :=
                  (jury_outputs.filter (fun o => !o.success)).length,
                jury_aggregation_model := AGGREGATION_MODEL,
                jury_aggregation := aggText }] })
      else ("error", st)

/-- The audit gate of the save path (src/tools/symptom_tools.py line 150):
`jury_trigger_modulo and (jury_trigger_count % jury_trigger_modulo == 0)` —
a zero modulus is falsy, so the gate is open iff the modulus is non-zero
and divides the returned count. -/
def juryGate (modulo count : Nat) : Bool :=
  modulo ≠ 0 && count % modulo == 0

/-- The failure script for one save call: whether the primary `es.index`
persist succeeds, whether the counter read and write succeed, and the jury
oracle. -/
structure SaveEnv where
  persistOk : Bool
  ctrGetOk : Bool
  ctrWriteOk : Bool
  jury : JuryEnv
  deriving Repr

/-- The caller-visible part of the save call's return value. -/
structure SaveResult where
  status : String
  jury_reviewed : Bool
  deriving DecidableEq, Repr

/-- `confirm_and_save_symptom_entry_impl` (src/tools/symptom_tools.py lines
84-183), from the point where the entry dict has been built: clean, ensure
raw notes, validate (any exception so far is caught by the outer `except`
and becomes an error status with nothing persisted), persist the record,
increment the jury counter, and, when `jury_trigger_modulo` is truthy and
divides the returned count, run the jury pipeline.  The Elasticsearch id of
a fresh document is always a non-empty string, so `if event_id:` holds, and
`llm_jury_compare_notes` never raises (logging context present), so
`jury_reviewed = True` whenever the gate fired. -/
def confirm_and_save (modulo : Nat) (env : SaveEnv) (e : Entry)
    (st : SaveSt) : SaveResult × SaveSt :=
  match normalizeEntry e with
  | .error _ => ({ status := "error", jury_reviewed := false }, st)
  | .ok ne =>
      if parseOk ne then
        if env.persistOk then
          let eventId := st.records.length
          let st1 := { st with records := st.records ++ [ne] }
          let (count, st2) :=
            increment_jury_counter env.ctrGetOk env.ctrWriteOk st1
          if juryGate modulo count then
            let (_, st3) := llm_jury_compare_notes env.jury eventId st2
            ({ status := "saved", jury_reviewed := true }, st3)
          else ({ status := "saved", jury_reviewed := false }, st2)
        else ({ status := "error", jury_reviewed := false }, st)
      else ({ status := "error", jury_reviewed := false }, st)

/-- An environment in which every storage operation and every model call
succeeds. -/
def okEnv : SaveEnv :=
  { persistOk := true, ctrGetOk := true, ctrWriteOk := true,
    jury := { panel := [.ok "report A", .ok "report B", .ok "report C"],
              agg := .ok "aggregate table", summaryWriteOk := true } }

/-- `n` sequential, non-concurrent saves of the same entry. -/
def runSaves (modulo : Nat) (env : SaveEnv) (e : Entry) :
    Nat → SaveSt → List SaveResult × SaveSt
  | 0, st => ([], st)
  | n + 1, st =>
      let (r, st1) := confirm_and_save modulo env e st
      let (rs, st2) := runSaves modulo env e n st1
      (r :: rs, st2)

/-- `n` sequential, non-concurrent `increment_jury_counter()` calls with no
storage failures, collecting the returned values. -/
def incrementSeq : Nat → SaveSt → List Nat × SaveSt
  | 0, st => ([], st)
  | n + 1, st =>
      let (v, st1) := increment_jury_counter true true st
      let (vs, st2) := incrementSeq n st1
      (v :: vs, st2)

/-- A stored symptom document as the update tool sees it
(`existing["_source"]`): its `symptom_details` dict and its tags. -/
structure StoredDoc where
  sd : Sd
  tags : Option (List String)
  deriving DecidableEq, Repr

/-- The optional arguments of `update_symptom_entry`
(src/tools/search_tools.py lines 143-153). -/
structure UpdateArgs where
  event_complete : Option Bool
  resolution_notes : Option String
  length_minutes : Option Int
  relief_factors : Option String
  severity : Option Int
  tags : Option (List String)
  deriving DecidableEq, Repr

/-- The `updated_fields` map of the update tool's return value
(src/tools/search_tools.py lines 212-220): every field echoes the argument,
except `resolution_notes`, which reports `resolution_notes is not None`. -/
structure UpdatedFields where
  event_complete : Option Bool
  resolution_notes : Bool
  length_minutes : Option Int
  relief_factors : Option String
  severity : Option Int
  tags : Option (List String)
  deriving DecidableEq, Repr

/-- `if x is not None: d[k] = v(x)` — overwrite the field only when the
argument was explicitly supplied. -/
def updField (m : Sd) (k : String) : Option Val → Sd
  | some v => setK m k v
  | none => m

/-- The four scalar overwrites of `update_symptom_entry_impl`
(src/tools/search_tools.py lines 182-192), in the source's order:
`event_complete`, `severity`, `length_minutes`, `relief_factors`, each
applied only when the argument `is not None`. -/
def sdAfterScalarUpdates (sd : Sd) (a : UpdateArgs) : Sd :=
  updField
    (updField
      (updField
        (updField sd "event_complete" (a.event_complete.map .vbool))
        "severity" (a.severity.map .vint))
      "length_minutes" (a.length_minutes.map .vint))
    "relief_factors" (a.relief_factors.map .vstr)

/-- The `raw_notes` append of `update_symptom_entry_impl`
(src/tools/search_tools.py lines 194-202): runs only when
`resolution_notes` is truthy (non-`None` and non-empty); the existing notes
are `.get("raw_notes", "")`, and when they are truthy the follow-up text is
appended after a blank line, otherwise a fresh `"Follow-up: ..."` text is
written. -/
def sdAfterNotes (sd : Sd) (a : UpdateArgs) : Sd :=
  match a.resolution_notes with
  | some r =>
      if r ≠ "" then
        let existing := (getD sd "raw_notes").getD (.vstr "")
        if pyTruthy existing then
          setK sd "raw_notes"
            (.vstr (pyStr existing ++ "\n\nFollow-up: " ++ r))
        else
          setK sd "raw_notes" (.vstr ("Follow-up: " ++ r))
      else sd
  | none => sd

/-- The document mutation of `update_symptom_entry_impl`
(src/tools/search_tools.py lines 181-205), in the source's order. -/
def applyUpdate (doc : StoredDoc) (a : UpdateArgs) : StoredDoc :=
  { sd := sdAfterNotes (sdAfterScalarUpdates doc.sd a) a,
    tags := match a.tags with
      | some t => some t
      | none => doc.tags }

/-- `update_symptom_entry_impl` (src/tools/search_tools.py lines 143-222) on
a fetched document: the mutated document is written back in full, and the
result reports `status`, the `updated_fields` map, and the new document. -/
def update_symptom_entry (doc : StoredDoc) (a : UpdateArgs) :
    (String × UpdatedFields) × StoredDoc :=
  let newDoc := applyUpdate doc a
  (("updated",
    { event_complete := a.event_complete,
      resolution_notes := a.resolution_notes.isSome,
      length_minutes := a.length_minutes,
      relief_factors := a.relief_factors,
      severity := a.severity,
      tags := a.tags }),
   newDoc)

/-- No value in the dict is a recognised null token. -/
def NoNulls (m : Sd) : Prop := ∀ kv ∈ m, is_null_value kv.2 = false

/-- The `associated_symptoms` value, if present, is neither a bare string
nor `None` (so the coercion step leaves it alone). -/
def AssocOk (m : Sd) : Prop :=
  ∀ v, getD m "associated_symptoms" = some v →
    (∀ s, v ≠ .vstr s) ∧ v ≠ .vnull

/-- The `details.severity ∈ [1,10]` invariant of the Record data model
(src/symptom_schema.py line 7), as a check on a stored document. -/
def severityInRange (doc : StoredDoc) : Bool :=
  match getD doc.sd "severity" with
  | some (.vint n) => 1 ≤ n && n ≤ 10
  | _ => false

/-- A stored symptom document as the update tool fetches it, from a
persisted entry (`model_dump`: the `symptom_details` dict and the tags). -/
def storedDocOf (e : Entry) : StoredDoc :=
  { sd := match e.symptom_details with
      | .dict m => m
      | _ => [],
    tags := e.tags }

/-- A valid confirmed entry: headache, severity 5, with raw notes. -/
def entryHeadache : Entry :=
  { timestamp := some "2025-10-22T14:00:00Z", user_id := some "u1",
    symptom_details := .dict
      [("symptom", .vstr "headache"), ("severity", .vint 5),
       ("raw_notes", .vstr "bad headache")],
    tags := none }

/-- `update_symptom_entry(event_id, severity=11)`. -/
def updSeverity11 : UpdateArgs :=
  { event_complete := none, resolution_notes := none, length_minutes := none,
    relief_factors := none, severity := some 11, tags := none }

/-- `raw_notes` is absent from the draft's `symptom_details`, or is
`None`/blank (whitespace-only), i.e. the situations the fallback is for. -/
def rawNotesAbsentOrBlank (m : Sd) : Bool :=
  match getD m "raw_notes" with
  | none => true
  | some .vnull => true
  | some (.vstr s) => pyStrip s = ""
  | some _ => false

/-- The raw-notes fallback as the amended claim describes it, over the
*original* draft: the first field among the candidates whose value is a
string that is non-blank after trimming and is not a recognised null token,
yielding the trimmed value.  (Stated from the spec's words to compare with
the implementation's clean-then-fallback composition.) -/
def fallbackPerSpec (m : Sd) : List String → Option String
  | [] => none
  | f :: fs =>
      match getD m f with
      | some (.vstr s) =>
          if pyStrip s ≠ "" ∧ pyLower (pyStrip s) ∉ NULL_VALUES then
            some (pyStrip s)
          else fallbackPerSpec m fs
      | _ => fallbackPerSpec m fs

/-- The `raw_notes` value of the normalized entry, as it would be persisted. -/
def normalizedRawNotes (e : Entry) : Option Val :=
  match normalizeEntry e with
  | .ok e' =>
      match e'.symptom_details with
      | .dict m' => getD m' "raw_notes"
      | _ => none
  | .error _ => none

/-- The save call succeeds through normalization and validation
(`SymptomEntry(**entry)` does not raise). -/
def saveOkEntry (e : Entry) : Bool :=
  match normalizeEntry e with
  | .ok ne => parseOk ne
  | .error _ => false

/-- The stored counter value as `get_jury_counter` reads it (0 if the
document does not exist). -/
def counterVal (st : SaveSt) : Nat := st.counter.getD 0

/-- The audit report persisted by a fully successful jury run under
`okEnv`'s oracle. -/
def okReport (eid : Nat) : AuditReport :=
  { event_id := eid,
    jury_models := JURY_MODELS.map Prod.fst,
    jury_outputs := gatherJury JURY_MODELS
      [.ok "report A", .ok "report B", .ok "report C"],
    successful_models_count := 3,
    failed_models_count := 0,
    jury_aggregation_model := AGGREGATION_MODEL,
    jury_aggregation := "aggregate table" }

/-- An all-success environment except that the aggregation model call
raises. -/
def envAggFail : SaveEnv :=
  { persistOk := true, ctrGetOk := true, ctrWriteOk := true,
    jury := { panel := [.ok "report A", .ok "report B", .ok "report C"],
              agg := .error "boom", summaryWriteOk := true } }

/-- An all-success environment except that the counter write raises. -/
def envCtrFail : SaveEnv :=
  { persistOk := true, ctrGetOk := true, ctrWriteOk := false,
    jury := { panel := [.ok "report A", .ok "report B", .ok "report C"],
              agg := .ok "aggregate table", summaryWriteOk := true } }

/-! ## General lemmas about the dict and string models -/

theorem getD_setK_self (m : Sd) (k : String) (v : Val) :
    getD (setK m k v) k = some v := by
  induction m with
  | nil => simp [setK, getD]
  | cons kv m ih =>
      obtain ⟨k', v'⟩ := kv
      by_cases h : k' = k
      · simp [setK, h, getD]
      · simp [setK, h, getD, ih]

theorem getD_setK_ne (m : Sd) (k k' : String) (v : Val) (h : k' ≠ k) :
    getD (setK m k v) k' = getD m k' := by
  have hk : ¬k = k' := fun hh => h hh.symm
  induction m with
  | nil => simp [setK, getD, hk]
  | cons kv m ih =>
      obtain ⟨k₀, v₀⟩ := kv
      by_cases h₀ : k₀ = k
      · subst h₀
        simp [setK, getD, hk]
      · simp [setK, getD, h₀, ih]

theorem mem_setK {x : String × Val} {m : Sd} {k : String} {v : Val}
    (h : x ∈ setK m k v) : x = (k, v) ∨ x ∈ m := by
  induction m with
  | nil => simpa [setK] using h
  | cons kv m ih =>
      obtain ⟨k₀, v₀⟩ := kv
      by_cases h₀ : k₀ = k
      · simp only [setK, if_pos h₀, List.mem_cons] at h
        rcases h with h | h
        · exact Or.inl h
        · exact Or.inr (List.mem_cons_of_mem _ h)
      · simp only [setK, if_neg h₀, List.mem_cons] at h
        rcases h with h | h
        · exact Or.inr (List.mem_cons.mpr (Or.inl h))
        · rcases ih h with h' | h'
          · exact Or.inl h'
          · exact Or.inr (List.mem_cons_of_mem _ h')

theorem getD_mem {m : Sd} {k : String} {v : Val} (h : getD m k = some v) :
    (k, v) ∈ m := by
  induction m with
  | nil => simp [getD] at h
  | cons kv m ih =>
      obtain ⟨k₀, v₀⟩ := kv
      by_cases h₀ : k₀ = k
      · subst h₀
        simp only [getD, if_true, eq_self_iff_true] at h
        cases h
        exact List.mem_cons_self _ _
      · simp [getD, h₀] at h
        exact List.mem_cons_of_mem _ (ih h)

theorem getD_mapVal (f : String → Val → Val) (m : Sd) (k : String) :
    getD (m.map fun kv => (kv.1, f kv.1 kv.2)) k = (getD m k).map (f k) := by
  induction m with
  | nil => simp [getD]
  | cons kv m ih =>
      obtain ⟨k₀, v₀⟩ := kv
      by_cases h₀ : k₀ = k
      · subst h₀
        simp [getD]
      · simp [getD, h₀, ih]

theorem stripL_dropWhile (l : List Char) :
    (stripL l).dropWhile Char.isWhitespace = stripL l := by
  unfold stripL
  set A := l.dropWhile Char.isWhitespace with hA
  rw [List.dropWhile_eq_self_iff]
  intro hl
  have hpre : A.rdropWhile Char.isWhitespace <+: A := List.rdropWhile_prefix _ _
  have hlen : 0 < A.length := lt_of_lt_of_le hl hpre.length_le
  have h0 : (A.rdropWhile Char.isWhitespace).get ⟨0, hl⟩ = A.get ⟨0, hlen⟩ := by
    simpa [List.get_eq_getElem] using hpre.getElem hl
  rw [h0]
  exact List.dropWhile_get_zero_not _ _ hlen

theorem stripL_idem (l : List Char) : stripL (stripL l) = stripL l := by
  conv_lhs => rw [stripL, stripL_dropWhile]
  exact List.rdropWhile_idempotent _ _

theorem pyStrip_pyStrip (s : String) : pyStrip (pyStrip s) = pyStrip s := by
  simp [pyStrip, stripL_idem]

/-! ## Invariants of the cleaning pass -/

theorem noNulls_replVal (k : String) : is_null_value (replVal k) = false := by
  unfold replVal
  split <;> rfl

theorem noNulls_mapClean (m : Sd) :
    NoNulls (m.map fun kv => (kv.1, cleanVal kv.1 kv.2)) := by
  intro kv hkv
  rcases List.mem_map.mp hkv with ⟨a, _, ha⟩
  subst ha
  by_cases h : is_null_value a.2 = true
  · simp [cleanVal, h, noNulls_replVal]
  · simp only [Bool.not_eq_true] at h
    simp [cleanVal, h]

theorem noNulls_setK {m : Sd} {k : String} {v : Val} (hm : NoNulls m)
    (hv : is_null_value v = false) : NoNulls (setK m k v) := by
  intro kv hkv
  rcases mem_setK hkv with h | h
  · subst h
    exact hv
  · exact hm kv h

theorem cleanSd_good (m : Sd) : NoNulls (cleanSd m) ∧ AssocOk (cleanSd m) := by
  unfold cleanSd coerceAssoc
  set m' := m.map fun kv => (kv.1, cleanVal kv.1 kv.2) with hm'
  have hn : NoNulls m' := noNulls_mapClean m
  cases hg : getD m' "associated_symptoms" with
  | none =>
      refine ⟨hn, ?_⟩
      intro v hv
      rw [hg] at hv
      exact absurd hv (by simp)
  | some v =>
      cases v with
      | vstr s =>
          refine ⟨noNulls_setK hn (by rfl), ?_⟩
          intro v hv
          rw [getD_setK_self] at hv
          cases hv
          exact ⟨(fun s h => by cases h), (by simp)⟩
      | vnull =>
          refine ⟨noNulls_setK hn (by rfl), ?_⟩
          intro v hv
          rw [getD_setK_self] at hv
          cases hv
          exact ⟨(fun s h => by cases h), (by simp)⟩
      | vint n =>
          refine ⟨hn, ?_⟩
          intro v hv
          rw [hg] at hv
          cases hv
          exact ⟨(fun s h => by cases h), (by simp)⟩
      | vbool b =>
          refine ⟨hn, ?_⟩
          intro v hv
          rw [hg] at hv
          cases hv
          exact ⟨(fun s h => by cases h), (by simp)⟩
      | vlist xs =>
          refine ⟨hn, ?_⟩
          intro v hv
          rw [hg] at hv
          cases hv
          exact ⟨(fun s h => by cases h), (by simp)⟩

theorem cleanSd_fixed {m : Sd} (hn : NoNulls m) (ha : AssocOk m) :
    cleanSd m = m := by
  unfold cleanSd coerceAssoc
  have hmap : (m.map fun kv => (kv.1, cleanVal kv.1 kv.2)) = m := by
    conv_rhs => rw [← List.map_id m]
    apply List.map_congr_left
    intro kv hkv
    simp [cleanVal, hn kv hkv]
  rw [hmap]
  cases hg : getD m "associated_symptoms" with
  | none => rfl
  | some v =>
      rcases ha v hg with ⟨hs, hnull⟩
      cases v with
      | vstr s => exact absurd rfl (hs s)
      | vnull => exact absurd rfl hnull
      | vint n => rfl
      | vbool b => rfl
      | vlist xs => rfl

theorem fallbackFind_spec {m : Sd} {fs : List String} {t : String}
    (h : fallbackFind m fs = some t) :
    ∃ f s, f ∈ fs ∧ getD m f = some (.vstr s) ∧ pyStrip s ≠ "" ∧
      t = pyStrip s := by
  induction fs with
  | nil => simp [fallbackFind] at h
  | cons f fs ih =>
      cases hget : getD m f with
      | none =>
          simp only [fallbackFind, hget] at h
          obtain ⟨f', s, hf', hg, hne, ht⟩ := ih h
          exact ⟨f', s, List.mem_cons_of_mem _ hf', hg, hne, ht⟩
      | some v =>
          cases v with
          | vstr s =>
              by_cases hs : pyStrip s = ""
              · simp only [fallbackFind, hget, hs, ne_eq, not_true_eq_false,
                  if_false] at h
                obtain ⟨f', s', hf', hg, hne, ht⟩ := ih h
                exact ⟨f', s', List.mem_cons_of_mem _ hf', hg, hne, ht⟩
              · simp only [fallbackFind, hget, hs, ne_eq, not_false_eq_true,
                  if_true, Option.some.injEq] at h
                exact ⟨f, s, List.mem_cons_self _ _, hget, hs, h.symm⟩
          | vnull =>
              simp only [fallbackFind, hget] at h
              obtain ⟨f', s, hf', hg, hne, ht⟩ := ih h
              exact ⟨f', s, List.mem_cons_of_mem _ hf', hg, hne, ht⟩
          | vint n =>
              simp only [fallbackFind, hget] at h
              obtain ⟨f', s, hf', hg, hne, ht⟩ := ih h
              exact ⟨f', s, List.mem_cons_of_mem _ hf', hg, hne, ht⟩
          | vbool b =>
              simp only [fallbackFind, hget] at h
              obtain ⟨f', s, hf', hg, hne, ht⟩ := ih h
              exact ⟨f', s, List.mem_cons_of_mem _ hf', hg, hne, ht⟩
          | vlist xs =>
              simp only [fallbackFind, hget] at h
              obtain ⟨f', s, hf', hg, hne, ht⟩ := ih h
              exact ⟨f', s, List.mem_cons_of_mem _ hf', hg, hne, ht⟩

theorem fallbackFind_ne_empty {m : Sd} {fs : List String} {t : String}
    (h : fallbackFind m fs = some t) : t ≠ "" := by
  obtain ⟨f, s, _, _, hne, ht⟩ := fallbackFind_spec h
  rw [ht]
  exact hne

theorem ensureSd_idem (m : Sd) : ensureSd (ensureSd m) = ensureSd m := by
  by_cases hr : rawNotesSet m = true
  · simp [ensureSd, hr]
  · simp only [Bool.not_eq_true] at hr
    cases hf : fallbackFind m ["description", "notes", "summary", "context"]
      with
    | none => simp [ensureSd, hr, hf]
    | some t =>
        have ht : t ≠ "" := fallbackFind_ne_empty hf
        have h1 : ensureSd m = setK m "raw_notes" (.vstr t) := by
          simp [ensureSd, hr, hf]
        rw [h1]
        have hr2 : rawNotesSet (setK m "raw_notes" (.vstr t)) = true := by
          simp [rawNotesSet, getD_setK_self, pyTruthy, ht]
        simp [ensureSd, hr2]

theorem ensureSd_good {m : Sd} (hn : NoNulls m) (ha : AssocOk m) :
    NoNulls (ensureSd m) ∧ AssocOk (ensureSd m) := by
  by_cases hr : rawNotesSet m = true
  · simp only [ensureSd, hr, if_true]
    exact ⟨hn, ha⟩
  · simp only [Bool.not_eq_true] at hr
    cases hf : fallbackFind m ["description", "notes", "summary", "context"]
      with
    | none =>
        simp only [ensureSd, hr, Bool.false_eq_true, if_false, hf]
        exact ⟨hn, ha⟩
    | some t =>
        have h1 : ensureSd m = setK m "raw_notes" (.vstr t) := by
          simp [ensureSd, hr, hf]
        rw [h1]
        obtain ⟨f, s, _, hget, hne, rfl⟩ := fallbackFind_spec hf
        have hmem : (f, Val.vstr s) ∈ m := getD_mem hget
        have hnulls : is_null_value (Val.vstr s) = false := hn _ hmem
        have hnull_t : is_null_value (Val.vstr (pyStrip s)) = false := by
          simp only [is_null_value] at hnulls ⊢
          rwa [pyStrip_pyStrip]
        constructor
        · exact noNulls_setK hn hnull_t
        · intro v hv
          rw [getD_setK_ne] at hv
          · exact ha v hv
          · decide

theorem normalizeEntry_dict (ts uid : Option String)
    (tags : Option (List String)) (m : Sd) :
    normalizeEntry ⟨ts, uid, .dict m, tags⟩ =
      .ok ⟨ts, uid, .dict (ensureSd (if m ≠ [] then cleanSd m else m)),
           tags⟩ := rfl

theorem good_if_clean (m : Sd) :
    NoNulls (if m ≠ [] then cleanSd m else m) ∧
      AssocOk (if m ≠ [] then cleanSd m else m) := by
  by_cases hm : m = []
  · subst hm
    simp only [ne_eq, not_true_eq_false, Bool.false_eq_true, if_false]
    constructor
    · intro kv hkv
      simp at hkv
    · intro v hv
      simp [getD] at hv
  · simp only [ne_eq, hm, not_false_eq_true, if_true]
    exact cleanSd_good m

/-- C7: Idempotent normalization — for every draft entry `d`, applying the
normalization pipeline (`clean_entry` followed by `ensure_raw_notes`) twice
produces the same result as applying it once (a crash inside the pipeline
propagates identically on both sides). -/
theorem normalize_idempotent (e : Entry) :
    (normalizeEntry e).bind normalizeEntry = normalizeEntry e := by
  obtain ⟨ts, uid, sd, tags⟩ := e
  cases sd with
  | absent => rfl
  | null => rfl
  | dict m =>
      rw [normalizeEntry_dict]
      show normalizeEntry
          ⟨ts, uid, .dict (ensureSd (if m ≠ [] then cleanSd m else m)),
           tags⟩ = _
      rw [normalizeEntry_dict]
      obtain ⟨hn₁, ha₁⟩ := good_if_clean m
      obtain ⟨hnM, haM⟩ := ensureSd_good hn₁ ha₁
      have key :
          (if ensureSd (if m ≠ [] then cleanSd m else m) ≠ [] then
              cleanSd (ensureSd (if m ≠ [] then cleanSd m else m))
            else ensureSd (if m ≠ [] then cleanSd m else m)) =
            ensureSd (if m ≠ [] then cleanSd m else m) := by
        by_cases hMe : ensureSd (if m ≠ [] then cleanSd m else m) = []
        · rw [if_neg (by simpa using hMe)]
        · rw [if_pos hMe]
          exact cleanSd_fixed hnM haM
      rw [key, ensureSd_idem]

/-- C4: Jury dispatch totality and ordering — for every panel and every
assignment of outcomes to its members (any subset failing, including all),
the dispatcher returns exactly one outcome per panel member, in declared
order: a succeeded member carries its report text, a failed member carries
`success = false` with its error text substituted as the report
(`"Error: " + message`); no member's failure removes another's outcome. -/
theorem jury_dispatch_total_ordered (panel : List (String × String))
    (oracle : List (Except String String))
    (h : oracle.length = panel.length) :
    (gatherJury panel oracle).length = panel.length ∧
      ∀ i mid lbl, panel.get? i = some (mid, lbl) →
        (∀ t, oracle.get? i = some (.ok t) →
            (gatherJury panel oracle).get? i =
              some { model_id := mid, model_label := lbl, jury_report := t,
                     success := true, error := none }) ∧
        (∀ msg, oracle.get? i = some (.error msg) →
            (gatherJury panel oracle).get? i =
              some { model_id := mid, model_label := lbl,
                     jury_report := "Error: " ++ msg, success := false,
                     error := some msg }) := by
  constructor
  · simp [gatherJury, h]
  · intro i mid lbl hp
    constructor
    · intro t ht
      have hz : (panel.zip oracle).get? i = some ((mid, lbl), Except.ok t) :=
        (List.get?_zip_eq_some _ _ _ _).mpr ⟨hp, ht⟩
      simp only [gatherJury, List.get?_eq_getElem?, List.getElem?_map]
      rw [← List.get?_eq_getElem?, hz]
      rfl
    · intro msg hmsg
      have hz : (panel.zip oracle).get? i =
          some ((mid, lbl), Except.error msg) :=
        (List.get?_zip_eq_some _ _ _ _).mpr ⟨hp, hmsg⟩
      simp only [gatherJury, List.get?_eq_getElem?, List.getElem?_map]
      rw [← List.get?_eq_getElem?, hz]
      rfl

/-- Witness for C4 at the concrete panel `JURY_MODELS` with the middle
member failing. -/
theorem jury_dispatch_total_ordered_witness :
    ([Except.ok "fine", Except.error "boom", Except.ok "good"] :
        List (Except String String)).length = JURY_MODELS.length ∧
      ((gatherJury JURY_MODELS
          [Except.ok "fine", Except.error "boom", Except.ok "good"]).length =
          JURY_MODELS.length ∧
        ∀ i mid lbl, JURY_MODELS.get? i = some (mid, lbl) →
          (∀ t, ([Except.ok "fine", Except.error "boom", Except.ok "good"] :
                List (Except String String)).get? i = some (.ok t) →
              (gatherJury JURY_MODELS
                  [Except.ok "fine", Except.error "boom",
                   Except.ok "good"]).get? i =
                some { model_id := mid, model_label := lbl, jury_report := t,
                       success := true, error := none }) ∧
          (∀ msg,
              ([Except.ok "fine", Except.error "boom", Except.ok "good"] :
                List (Except String String)).get? i = some (.error msg) →
              (gatherJury JURY_MODELS
                  [Except.ok "fine", Except.error "boom",
                   Except.ok "good"]).get? i =
                some { model_id := mid, model_label := lbl,
                       jury_report := "Error: " ++ msg, success := false,
                       error := some msg })) :=
  ⟨rfl, jury_dispatch_total_ordered JURY_MODELS
    [Except.ok "fine", Except.error "boom", Except.ok "good"] rfl⟩

theorem getD_updField_ne (m : Sd) (k k' : String) (ov : Option Val)
    (h : k' ≠ k) : getD (updField m k ov) k' = getD m k' := by
  cases ov with
  | none => rfl
  | some v => exact getD_setK_ne m k k' v h

theorem scalar_updates_preserve_rawnotes (sd : Sd) (a : UpdateArgs) :
    getD (sdAfterScalarUpdates sd a) "raw_notes" = getD sd "raw_notes" := by
  unfold sdAfterScalarUpdates
  rw [getD_updField_ne _ _ _ _ (by decide), getD_updField_ne _ _ _ _
    (by decide), getD_updField_ne _ _ _ _ (by decide),
    getD_updField_ne _ _ _ _ (by decide)]

/-- C8: Follow-up appends, never replaces — for every stored record with
non-empty `raw_notes` and every update supplying non-empty
`resolution_notes`, the updated record's `raw_notes` is exactly the
original text followed by `"\n\nFollow-up: "` and the follow-up text, so
the original notes appear verbatim and first. -/
theorem followup_append_not_replace (doc : StoredDoc) (a : UpdateArgs)
    (r s : String) (hr : a.resolution_notes = some r) (hrne : r ≠ "")
    (hs : getD doc.sd "raw_notes" = some (.vstr s)) (hsne : s ≠ "") :
    getD (applyUpdate doc a).sd "raw_notes" =
      some (.vstr (s ++ "\n\nFollow-up: " ++ r)) := by
  have h1 : getD (sdAfterScalarUpdates doc.sd a) "raw_notes" =
      some (.vstr s) := by
    rw [scalar_updates_preserve_rawnotes, hs]
  show getD (sdAfterNotes (sdAfterScalarUpdates doc.sd a) a) "raw_notes" = _
  simp only [sdAfterNotes, hr, h1, Option.getD_some]
  rw [if_pos hrne, if_pos (by simp [pyTruthy, hsne])]
  rw [getD_setK_self]
  rfl

/-- Witness for C8 at a concrete stored record and follow-up. -/
theorem followup_append_not_replace_witness :
    ({ event_complete := none, resolution_notes := some "better now",
       length_minutes := none, relief_factors := none, severity := none,
       tags := none } : UpdateArgs).resolution_notes = some "better now" ∧
      getD ({ sd := [("symptom", .vstr "headache"), ("severity", .vint 5),
                     ("raw_notes", .vstr "bad headache")],
              tags := none } : StoredDoc).sd "raw_notes" =
        some (.vstr "bad headache") ∧
      getD (applyUpdate
          { sd := [("symptom", .vstr "headache"), ("severity", .vint 5),
                   ("raw_notes", .vstr "bad headache")], tags := none }
          { event_complete := none, resolution_notes := some "better now",
            length_minutes := none, relief_factors := none, severity := none,
            tags := none }).sd "raw_notes" =
        some (.vstr ("bad headache" ++ "\n\nFollow-up: " ++ "better now")) :=
  ⟨rfl, rfl,
    followup_append_not_replace _ _ "better now" "bad headache" rfl
      (by decide) rfl (by decide)⟩

/-- C10: an update whose `resolution_notes` is the empty string leaves
`raw_notes` unchanged (the append is gated on truthiness) while the
returned `updated_fields` map still reports `resolution_notes` as supplied
(gated on `is not None`). -/
theorem empty_resolution_notes_quirk (doc : StoredDoc) (a : UpdateArgs)
    (hr : a.resolution_notes = some "") :
    getD (applyUpdate doc a).sd "raw_notes" = getD doc.sd "raw_notes" ∧
      (update_symptom_entry doc a).1.2.resolution_notes = true := by
  constructor
  · show getD (sdAfterNotes (sdAfterScalarUpdates doc.sd a) a) "raw_notes" = _
    simp only [sdAfterNotes, hr, ne_eq, not_true_eq_false, if_false]
    exact scalar_updates_preserve_rawnotes doc.sd a
  · simp [update_symptom_entry, hr]

/-- Witness for C10 at a concrete stored record. -/
theorem empty_resolution_notes_quirk_witness :
    ({ event_complete := none, resolution_notes := some "",
       length_minutes := none, relief_factors := none, severity := none,
       tags := none } : UpdateArgs).resolution_notes = some "" ∧
      (getD (applyUpdate
            { sd := [("symptom", .vstr "headache"), ("severity", .vint 5),
                     ("raw_notes", .vstr "bad headache")], tags := none }
            { event_complete := none, resolution_notes := some "",
              length_minutes := none, relief_factors := none,
              severity := none, tags := none }).sd "raw_notes" =
          getD ({ sd := [("symptom", .vstr "headache"),
                         ("severity", .vint 5),
                         ("raw_notes", .vstr "bad headache")],
                  tags := none } : StoredDoc).sd "raw_notes" ∧
        (update_symptom_entry
            { sd := [("symptom", .vstr "headache"), ("severity", .vint 5),
                     ("raw_notes", .vstr "bad headache")], tags := none }
            { event_complete := none, resolution_notes := some "",
              length_minutes := none, relief_factors := none,
              severity := none, tags := none }).1.2.resolution_notes =
          true) :=
  ⟨rfl, empty_resolution_notes_quirk _ _ rfl⟩

/-- C5 (code-bug evidence): a record saved through the validated save path
(stored severity 5, inside `[1,10]`) is updated by
`update_symptom_entry(severity=11)`; the update path performs no
validation, so the document written back to storage has severity 11,
violating the schema's own `severity ∈ [1,10]` constraint. -/
theorem update_severity_unvalidated :
    (confirm_and_save 0 okEnv entryHeadache freshSt).2.records =
        [entryHeadache] ∧
      severityInRange (storedDocOf entryHeadache) = true ∧
      getD (applyUpdate (storedDocOf entryHeadache) updSeverity11).sd
          "severity" = some (.vint 11) ∧
      severityInRange (applyUpdate (storedDocOf entryHeadache)
          updSeverity11) = false :=
  ⟨rfl, rfl, rfl, rfl⟩

theorem getD_coerceAssoc_ne (m : Sd) (k : String)
    (h : k ≠ "associated_symptoms") : getD (coerceAssoc m) k = getD m k := by
  unfold coerceAssoc
  cases hg : getD m "associated_symptoms" with
  | none => rfl
  | some v =>
      cases v with
      | vstr s => exact getD_setK_ne m _ k _ h
      | vnull => exact getD_setK_ne m _ k _ h
      | vint n => rfl
      | vbool b => rfl
      | vlist xs => rfl

theorem getD_cleanSd (m : Sd) (k : String)
    (h : k ≠ "associated_symptoms") :
    getD (cleanSd m) k = (getD m k).map (cleanVal k) := by
  unfold cleanSd
  rw [getD_coerceAssoc_ne _ _ h, getD_mapVal]

theorem not_null_strip_ne {s : String}
    (h : is_null_value (.vstr s) = false) : pyStrip s ≠ "" := by
  intro hs
  simp only [is_null_value, hs] at h
  exact absurd (by decide : pyLower "" ∈ NULL_VALUES)
    (by simpa using h)

theorem fallbackFind_clean_eq (m : Sd) (fs : List String)
    (hfs : ∀ f ∈ fs, f ≠ "associated_symptoms") :
    fallbackFind (cleanSd m) fs = fallbackPerSpec m fs := by
  induction fs with
  | nil => rfl
  | cons f fs ih =>
      have hf : f ≠ "associated_symptoms" := hfs f (List.mem_cons_self _ _)
      have hrec := ih fun g hg => hfs g (List.mem_cons_of_mem _ hg)
      have hget : getD (cleanSd m) f = (getD m f).map (cleanVal f) :=
        getD_cleanSd m f hf
      cases hv : getD m f with
      | none =>
          rw [fallbackFind, fallbackPerSpec, hget, hv]
          exact hrec
      | some v =>
          cases v with
          | vstr s =>
              by_cases hnull : is_null_value (.vstr s) = true
              · have hrepl : cleanVal f (.vstr s) = .vnull := by
                  simp [cleanVal, hnull, replVal, hf]
                have hcond : ¬(pyStrip s ≠ "" ∧
                    pyLower (pyStrip s) ∉ NULL_VALUES) := by
                  intro hc
                  simp only [is_null_value] at hnull
                  exact hc.2 (by simpa using hnull)
                rw [fallbackFind, fallbackPerSpec, hget, hv]
                simp only [Option.map_some', hrepl]
                simp only [hcond, if_false]
                exact hrec
              · simp only [Bool.not_eq_true] at hnull
                have hid : cleanVal f (.vstr s) = .vstr s := by
                  simp [cleanVal, hnull]
                have hne : pyStrip s ≠ "" := not_null_strip_ne hnull
                have hcond : pyStrip s ≠ "" ∧
                    pyLower (pyStrip s) ∉ NULL_VALUES := by
                  refine ⟨hne, ?_⟩
                  simpa [is_null_value] using hnull
                rw [fallbackFind, fallbackPerSpec, hget, hv]
                simp only [Option.map_some', hid]
                simp [hne, hcond]
          | vnull =>
              rw [fallbackFind, fallbackPerSpec, hget, hv]
              exact hrec
          | vint n =>
              rw [fallbackFind, fallbackPerSpec, hget, hv]
              exact hrec
          | vbool b =>
              rw [fallbackFind, fallbackPerSpec, hget, hv]
              exact hrec
          | vlist xs =>
              rw [fallbackFind, fallbackPerSpec, hget, hv]
              exact hrec

theorem fallbackPerSpec_nil (fs : List String) :
    fallbackPerSpec [] fs = none := by
  induction fs with
  | nil => rfl
  | cons f fs ih =>
      rw [fallbackPerSpec]
      exact ih

theorem rawNotesSet_clean_false {m : Sd}
    (h : rawNotesAbsentOrBlank m = true) :
    rawNotesSet (cleanSd m) = false := by
  have hg : getD (cleanSd m) "raw_notes" =
      (getD m "raw_notes").map (cleanVal "raw_notes") :=
    getD_cleanSd m _ (by decide)
  unfold rawNotesSet
  rw [hg]
  unfold rawNotesAbsentOrBlank at h
  cases hv : getD m "raw_notes" with
  | none => rfl
  | some v =>
      rw [hv] at h
      cases v with
      | vnull => rfl
      | vstr s =>
          have hs : pyStrip s = "" := by simpa using h
          have hnull : is_null_value (.vstr s) = true := by
            simp only [is_null_value, hs]
            decide
          simp only [Option.map_some']
          have hrepl : cleanVal "raw_notes" (.vstr s) = .vnull := by
            simp [cleanVal, hnull, replVal]
          rw [hrepl]
          rfl
      | vint n => exact absurd h (by simp)
      | vbool b => exact absurd h (by simp)
      | vlist xs => exact absurd h (by simp)

/-- C9 (amended): on the save path's normalization, for every draft
`symptom_details` whose `raw_notes` is absent, `None`, or blank, if the
spec-order fallback search (description, notes, summary, context; first
value that is a string, non-blank after trimming, and not a null token)
finds `t`, then the normalized — hence saved — record's `raw_notes` equals
`t`, the trimmed value; a null-token value (e.g. `"n/a"`) is cleaned away
before the fallback and therefore skipped. -/
theorem rawnotes_fallback_amended (ts uid : Option String)
    (tags : Option (List String)) (m : Sd) (t : String)
    (hblank : rawNotesAbsentOrBlank m = true)
    (hfb : fallbackPerSpec m ["description", "notes", "summary", "context"] =
      some t) :
    ∃ m', normalizeEntry ⟨ts, uid, .dict m, tags⟩ =
        .ok ⟨ts, uid, .dict m', tags⟩ ∧
      getD m' "raw_notes" = some (.vstr t) := by
  have hmne : m ≠ [] := by
    intro hm
    subst hm
    rw [fallbackPerSpec_nil] at hfb
    cases hfb
  refine ⟨ensureSd (cleanSd m), ?_, ?_⟩
  · rw [normalizeEntry_dict, if_pos hmne]
  · have hrn : rawNotesSet (cleanSd m) = false :=
      rawNotesSet_clean_false hblank
    have hff : fallbackFind (cleanSd m)
        ["description", "notes", "summary", "context"] = some t := by
      rw [fallbackFind_clean_eq m _ (by decide)]
      exact hfb
    unfold ensureSd
    rw [hrn]
    simp only [Bool.false_eq_true, if_false]
    rw [hff]
    exact getD_setK_self _ _ _

/-- Witness for the amended C9 at a concrete draft: blank raw notes, value
taken from `description`. -/
theorem rawnotes_fallback_amended_witness :
    rawNotesAbsentOrBlank
        [("symptom", .vstr "migraine"), ("severity", .vint 7),
         ("raw_notes", .vstr "   "), ("description", .vstr " sharp pain ")] =
      true ∧
    fallbackPerSpec
        [("symptom", .vstr "migraine"), ("severity", .vint 7),
         ("raw_notes", .vstr "   "), ("description", .vstr " sharp pain ")]
        ["description", "notes", "summary", "context"] = some "sharp pain" ∧
    ∃ m', normalizeEntry
        ⟨some "2025-10-22T14:00:00Z", none,
         .dict [("symptom", .vstr "migraine"), ("severity", .vint 7),
                ("raw_notes", .vstr "   "),
                ("description", .vstr " sharp pain ")], none⟩ =
        .ok ⟨some "2025-10-22T14:00:00Z", none, .dict m', none⟩ ∧
      getD m' "raw_notes" = some (.vstr "sharp pain") :=
  ⟨by decide, by decide,
    rawnotes_fallback_amended _ _ _ _ "sharp pain" (by decide) (by decide)⟩

/-- C9 counterexample: an entry with no `raw_notes` and the non-blank
description `"n/a"` does *not* get `raw_notes = "n/a"` — the null-token
cleaning pass nulls the description before the fallback runs, so the claim
as stated fails. -/
theorem rawnotes_fallback_counterexample :
    getD [("symptom", Val.vstr "headache"), ("severity", Val.vint 5),
          ("description", Val.vstr "n/a")] "raw_notes" = none ∧
      pyStrip "n/a" ≠ "" ∧
      normalizedRawNotes
          ⟨some "2025-10-22T14:00:00Z", none,
           .dict [("symptom", Val.vstr "headache"), ("severity", Val.vint 5),
                  ("description", Val.vstr "n/a")], none⟩ ≠
        some (.vstr (pyStrip "n/a")) := by
  refine ⟨rfl, by decide, ?_⟩
  decide

/-- C6: Validation-failure atomicity — for every draft that fails
normalization or schema validation, the save call returns an error status
and the storage state is completely unchanged: no record persisted, the
trigger counter not incremented, no audit invoked. -/
theorem validation_failure_atomic (modulo : Nat) (env : SaveEnv) (e : Entry)
    (st : SaveSt) (h : saveOkEntry e = false) :
    confirm_and_save modulo env e st =
      ({ status := "error", jury_reviewed := false }, st) := by
  unfold confirm_and_save
  unfold saveOkEntry at h
  cases hn : normalizeEntry e with
  | error msg => rfl
  | ok ne =>
      rw [hn] at h
      simp only [] at h
      simp [h]

/-- Witness for C6: severity 11 fails validation; nothing is persisted. -/
theorem validation_failure_atomic_witness :
    saveOkEntry
        ⟨some "2025-10-22T14:00:00Z", none,
         .dict [("symptom", .vstr "headache"), ("severity", .vint 11)],
         none⟩ = false ∧
      confirm_and_save 3 okEnv
          ⟨some "2025-10-22T14:00:00Z", none,
           .dict [("symptom", .vstr "headache"), ("severity", .vint 11)],
           none⟩ freshSt =
        ({ status := "error", jury_reviewed := false }, freshSt) :=
  ⟨by decide, validation_failure_atomic 3 okEnv _ freshSt (by decide)⟩

theorem increment_ok (st : SaveSt) :
    increment_jury_counter true true st =
      (counterVal st + 1, { st with counter := some (counterVal st + 1) }) := by
  cases hc : st.counter with
  | none => simp [increment_jury_counter, get_jury_counter, counterVal, hc]
  | some c => simp [increment_jury_counter, get_jury_counter, counterVal, hc]

theorem increment_write_fails (getOk : Bool) (st : SaveSt) :
    increment_jury_counter getOk false st = (0, st) := by
  cases getOk <;> rfl

theorem llm_jury_ok (eid : Nat) (st : SaveSt) :
    llm_jury_compare_notes okEnv.jury eid st =
      ("jury_completed",
       { st with summaries := st.summaries ++ [okReport eid] }) := rfl

/-- One save through `confirm_and_save` with a valid entry and every
storage operation succeeding: the record is appended, the counter advances
by one, the gate decides the audit, and a full report is appended iff the
gate was open. -/
theorem confirm_and_save_ok_step (modulo : Nat) (e ne : Entry) (st : SaveSt)
    (hne : normalizeEntry e = .ok ne) (hp : parseOk ne = true) :
    confirm_and_save modulo okEnv e st =
      ({ status := "saved",
         jury_reviewed := juryGate modulo (counterVal st + 1) },
       { records := st.records ++ [ne],
         counter := some (counterVal st + 1),
         summaries := st.summaries ++
           (if juryGate modulo (counterVal st + 1) then
             [okReport st.records.length] else []) }) := by
  unfold confirm_and_save
  rw [hne]
  have hinc : increment_jury_counter okEnv.ctrGetOk okEnv.ctrWriteOk
      { st with records := st.records ++ [ne] } =
      (counterVal st + 1,
       { records := st.records ++ [ne],
         counter := some (counterVal st + 1),
         summaries := st.summaries }) := by
    have h := increment_ok { st with records := st.records ++ [ne] }
    simpa [counterVal] using h
  simp only [hp, if_true, hinc]
  cases hg : juryGate modulo (counterVal st + 1) with
  | false => simp [okEnv, hg]
  | true =>
      simp [okEnv, hg]
      rfl

theorem runSaves_succ (modulo : Nat) (env : SaveEnv) (e : Entry) (n : Nat)
    (st : SaveSt) :
    runSaves modulo env e (n + 1) st =
      ((confirm_and_save modulo env e st).1 ::
        (runSaves modulo env e n (confirm_and_save modulo env e st).2).1,
       (runSaves modulo env e n (confirm_and_save modulo env e st).2).2) :=
  rfl

theorem runSaves_ok_spec (modulo : Nat) (e ne : Entry)
    (hne : normalizeEntry e = .ok ne) (hp : parseOk ne = true) (n : Nat) :
    ∀ st : SaveSt,
      counterVal (runSaves modulo okEnv e n st).2 = counterVal st + n ∧
      (runSaves modulo okEnv e n st).2.summaries.length =
        st.summaries.length +
          ((List.range n).filter
            fun i => juryGate modulo (counterVal st + i + 1)).length ∧
      ∀ i, i < n → (runSaves modulo okEnv e n st).1.get? i =
        some { status := "saved",
               jury_reviewed := juryGate modulo (counterVal st + i + 1) } := by
  induction n with
  | zero =>
      intro st
      refine ⟨by simp [runSaves], by simp [runSaves], ?_⟩
      intro i hi
      exact absurd hi (by omega)
  | succ n ih =>
      intro st
      have hstep := confirm_and_save_ok_step modulo e ne st hne hp
      rw [runSaves_succ, hstep]
      set st1 : SaveSt :=
        { records := st.records ++ [ne],
          counter := some (counterVal st + 1),
          summaries := st.summaries ++
            (if juryGate modulo (counterVal st + 1) then
              [okReport st.records.length] else []) } with hst1
      obtain ⟨ihc, ihs, ihg⟩ := ih st1
      have hc1 : counterVal st1 = counterVal st + 1 := rfl
      have hpt : ∀ i, juryGate modulo (counterVal st + 1 + i + 1) =
          juryGate modulo (counterVal st + (i + 1) + 1) := by
        intro i
        have harith : counterVal st + 1 + i + 1 =
            counterVal st + (i + 1) + 1 := by omega
        rw [harith]
      refine ⟨?_, ?_, ?_⟩
      · rw [ihc, hc1]
        omega
      · rw [ihs, hc1]
        have hs1 : st1.summaries.length =
            st.summaries.length +
              (if juryGate modulo (counterVal st + 1) then 1 else 0) := by
          show (st.summaries ++
            (if juryGate modulo (counterVal st + 1) then
              [okReport st.records.length] else [])).length = _
          rw [List.length_append]
          split <;> rfl
        rw [hs1]
        rw [List.filter_congr (fun i _ => hpt i)]
        rw [List.range_succ_eq_map, List.filter_cons, List.filter_map]
        simp only [Function.comp_def, Nat.succ_eq_add_one]
        by_cases hg : juryGate modulo (counterVal st + 0 + 1) = true
        · have hg2 : juryGate modulo (counterVal st + 1) = true := by
            simpa using hg
          simp only [hg, hg2, if_true, List.length_cons, List.length_map]
          omega
        · simp only [Bool.not_eq_true] at hg
          have hg2 : juryGate modulo (counterVal st + 1) = false := by
            simpa using hg
          simp only [hg, hg2, Bool.false_eq_true, if_false, List.length_map]
          omega
      · intro i hi
        cases i with
        | zero => simp
        | succ j =>
            have hj : j < n := by omega
            have hh := ihg j hj
            simp only [List.get?_cons_succ]
            rw [hh, hc1, hpt j]

theorem juryGate_zero (c : Nat) : juryGate 0 c = false := by
  simp [juryGate]

theorem juryGate_three (i : Nat) :
    juryGate 3 (0 + i + 1) = decide ((i + 1) % 3 = 0) := by
  by_cases h : (i + 1) % 3 = 0 <;> simp [juryGate, h]

theorem count_multiples_three (n : Nat) :
    ((List.range n).filter fun i => juryGate 3 (0 + i + 1)).length =
      n / 3 := by
  induction n with
  | zero => rfl
  | succ n ih =>
      rw [List.range_succ, List.filter_append, List.length_append, ih,
        Nat.succ_div]
      have hj : juryGate 3 (0 + n + 1) = true ↔ 3 ∣ (n + 1) := by
        simp [juryGate, Nat.dvd_iff_mod_eq_zero]
      by_cases h3 : 3 ∣ (n + 1)
      · rw [if_pos h3]
        have hb := hj.mpr h3
        have hb2 : juryGate 3 (n + 1) = true := by simpa using hb
        simp [List.filter_singleton, hb2]
      · rw [if_neg h3]
        have hb : juryGate 3 (0 + n + 1) = false := by
          cases hg : juryGate 3 (0 + n + 1) with
          | false => rfl
          | true => exact absurd (hj.mp hg) h3
        have hb2 : juryGate 3 (n + 1) = false := by simpa using hb
        simp [List.filter_singleton, hb2]

theorem incrementSeq_succ (n : Nat) (st : SaveSt) :
    incrementSeq (n + 1) st =
      ((increment_jury_counter true true st).1 ::
        (incrementSeq n (increment_jury_counter true true st).2).1,
       (incrementSeq n (increment_jury_counter true true st).2).2) := rfl

theorem incrementSeq_spec (n : Nat) :
    ∀ st : SaveSt,
      (incrementSeq n st).1 = List.range' (counterVal st + 1) n ∧
      counterVal (incrementSeq n st).2 = counterVal st + n := by
  induction n with
  | zero =>
      intro st
      exact ⟨rfl, rfl⟩
  | succ n ih =>
      intro st
      rw [incrementSeq_succ, increment_ok]
      set st1 : SaveSt := { st with counter := some (counterVal st + 1) }
        with hst1
      obtain ⟨ih1, ih2⟩ := ih st1
      have hc1 : counterVal st1 = counterVal st + 1 := rfl
      constructor
      · rw [List.range'_succ]
        show (counterVal st + 1) :: (incrementSeq n st1).1 = _
        rw [ih1, hc1]
      · show counterVal (incrementSeq n st1).2 = _
        rw [ih2, hc1]
        omega

/-- C1: Audit gating — starting from a fresh Trigger Counter, for `n`
sequential, non-concurrent saves of a valid entry with no storage failures:
with modulus 3, the k-th save (0-based `i`, k = i+1) reports a completed
audit exactly when `k % 3 = 0` and exactly `n / 3` audit reports are
persisted; with modulus 0 no save ever audits and no report is persisted;
and the k-th counter increment returns `k` (the value sequence is
`[1, ..., n]`). -/
theorem audit_gating (n : Nat) (e ne : Entry)
    (hne : normalizeEntry e = .ok ne) (hp : parseOk ne = true) :
    (∀ i, i < n → (runSaves 3 okEnv e n freshSt).1.get? i =
        some { status := "saved",
               jury_reviewed := decide ((i + 1) % 3 = 0) }) ∧
      (runSaves 3 okEnv e n freshSt).2.summaries.length = n / 3 ∧
      (∀ i, i < n → (runSaves 0 okEnv e n freshSt).1.get? i =
        some { status := "saved", jury_reviewed := false }) ∧
      (runSaves 0 okEnv e n freshSt).2.summaries.length = 0 ∧
      (incrementSeq n freshSt).1 = List.range' 1 n := by
  obtain ⟨hc3, hs3, hg3⟩ := runSaves_ok_spec 3 e ne hne hp n freshSt
  obtain ⟨hc0, hs0, hg0⟩ := runSaves_ok_spec 0 e ne hne hp n freshSt
  obtain ⟨hi1, hi2⟩ := incrementSeq_spec n freshSt
  have hcv : counterVal freshSt = 0 := rfl
  refine ⟨?_, ?_, ?_, ?_, ?_⟩
  · intro i hi
    rw [hg3 i hi, hcv, juryGate_three]
  · rw [hs3, hcv, count_multiples_three]
    simp [freshSt]
  · intro i hi
    rw [hg0 i hi, juryGate_zero]
  · rw [hs0]
    simp only [juryGate_zero, Bool.false_eq_true, List.filter_false]
    simp [freshSt]
  · rw [hi1, hcv]

/-- Witness for C1 at the concrete valid entry `entryHeadache` and `n = 7`. -/
theorem audit_gating_witness :
    normalizeEntry entryHeadache = .ok entryHeadache ∧
      parseOk entryHeadache = true ∧
      ((∀ i, i < 7 →
          (runSaves 3 okEnv entryHeadache 7 freshSt).1.get? i =
            some { status := "saved",
                   jury_reviewed := decide ((i + 1) % 3 = 0) }) ∧
        (runSaves 3 okEnv entryHeadache 7 freshSt).2.summaries.length =
          7 / 3 ∧
        (∀ i, i < 7 →
          (runSaves 0 okEnv entryHeadache 7 freshSt).1.get? i =
            some { status := "saved", jury_reviewed := false }) ∧
        (runSaves 0 okEnv entryHeadache 7 freshSt).2.summaries.length = 0 ∧
        (incrementSeq 7 freshSt).1 = List.range' 1 7) :=
  ⟨rfl, rfl, audit_gating 7 entryHeadache entryHeadache rfl rfl⟩

theorem llm_jury_counter (env : JuryEnv) (eid : Nat) (st : SaveSt) :
    (llm_jury_compare_notes env eid st).2.counter = st.counter := by
  unfold llm_jury_compare_notes
  cases env.agg with
  | error m => rfl
  | ok t => cases hw : env.summaryWriteOk <;> simp [hw]

/-- C2 (amended): for every save in which the record was persisted and the
jury gate fired, if the aggregation model call raises, the save call still
returns `status = "saved"` and the persisted record remains in storage —
but the audit-completed flag is `true`, not `false`: the jury function
swallows the aggregation error and returns an error result that the save
path never inspects; no audit report is persisted. -/
theorem audit_failure_isolation_amended (modulo : Nat) (env : SaveEnv)
    (e ne : Entry) (st : SaveSt) (msg : String)
    (hne : normalizeEntry e = .ok ne) (hp : parseOk ne = true)
    (hpersist : env.persistOk = true) (hget : env.ctrGetOk = true)
    (hwrite : env.ctrWriteOk = true)
    (hgate : juryGate modulo (counterVal st + 1) = true)
    (hagg : env.jury.agg = .error msg) :
    confirm_and_save modulo env e st =
      ({ status := "saved", jury_reviewed := true },
       { records := st.records ++ [ne],
         counter := some (counterVal st + 1),
         summaries := st.summaries }) := by
  unfold confirm_and_save
  rw [hne, hpersist, hget, hwrite]
  have hinc : increment_jury_counter true true
      { st with records := st.records ++ [ne] } =
      (counterVal st + 1,
       { records := st.records ++ [ne],
         counter := some (counterVal st + 1),
         summaries := st.summaries }) := by
    have h := increment_ok { st with records := st.records ++ [ne] }
    simpa [counterVal] using h
  have hjury : llm_jury_compare_notes env.jury st.records.length
      { records := st.records ++ [ne],
        counter := some (counterVal st + 1),
        summaries := st.summaries } =
      ("error",
       { records := st.records ++ [ne],
         counter := some (counterVal st + 1),
         summaries := st.summaries }) := by
    unfold llm_jury_compare_notes
    rw [hagg]
  simp only [hp, if_true, hinc, hgate, hjury]

/-- Witness for the amended C2 at modulus 1 with the aggregation call
raising. -/
theorem audit_failure_isolation_amended_witness :
    envAggFail.jury.agg = .error "boom" ∧
      juryGate 1 (counterVal freshSt + 1) = true ∧
      confirm_and_save 1 envAggFail entryHeadache freshSt =
        ({ status := "saved", jury_reviewed := true },
         { records := freshSt.records ++ [entryHeadache],
           counter := some (counterVal freshSt + 1),
           summaries := freshSt.summaries }) :=
  ⟨rfl, by decide,
    audit_failure_isolation_amended 1 envAggFail entryHeadache entryHeadache
      freshSt "boom" rfl rfl rfl rfl rfl (by decide) rfl⟩

/-- C2 counterexample: a persisted, gate-triggered save whose aggregation
call raises reports `jury_reviewed = true`, not `false` as the claim
states. -/
theorem audit_failure_isolation_counterexample :
    envAggFail.jury.agg = .error "boom" ∧
      (confirm_and_save 1 envAggFail entryHeadache freshSt).1.status =
        "saved" ∧
      (confirm_and_save 1 envAggFail entryHeadache freshSt).2.records =
        [entryHeadache] ∧
      (confirm_and_save 1 envAggFail entryHeadache
          freshSt).1.jury_reviewed ≠ false := by
  refine ⟨rfl, rfl, rfl, ?_⟩
  decide

/-- C3 (amended): for every save with a positive modulus in which the
counter *write* fails, `increment()` returns 0 instead of propagating the
error and the stored counter is unchanged — but as a consequence the jury
audit *fires* on that save cycle, because `0 % N == 0` for every positive
`N`.  (A failed read alone is swallowed inside the read, which returns 0,
so `increment()` then returns 1.) -/
theorem counter_failure_fires_audit (modulo : Nat) (env : SaveEnv)
    (e ne : Entry) (st : SaveSt)
    (hne : normalizeEntry e = .ok ne) (hp : parseOk ne = true)
    (hpersist : env.persistOk = true) (hwrite : env.ctrWriteOk = false)
    (hm : modulo ≠ 0) :
    (increment_jury_counter env.ctrGetOk env.ctrWriteOk
        { st with records := st.records ++ [ne] }).1 = 0 ∧
      (confirm_and_save modulo env e st).1 =
        { status := "saved", jury_reviewed := true } ∧
      (confirm_and_save modulo env e st).2.counter = st.counter := by
  have hinc : increment_jury_counter env.ctrGetOk env.ctrWriteOk
      { st with records := st.records ++ [ne] } =
      (0, { st with records := st.records ++ [ne] }) := by
    rw [hwrite]
    exact increment_write_fails env.ctrGetOk _
  have hgate : juryGate modulo 0 = true := by
    simp [juryGate, hm, Nat.zero_mod]
  constructor
  · rw [hinc]
  · unfold confirm_and_save
    rw [hne, hpersist]
    simp only [hp, if_true, hinc, hgate]
    constructor
    · trivial
    · rw [llm_jury_counter]

/-- Witness for the amended C3 at modulus 3 with the counter write
failing. -/
theorem counter_failure_fires_audit_witness :
    envCtrFail.ctrWriteOk = false ∧ (3 : Nat) ≠ 0 ∧
      ((increment_jury_counter envCtrFail.ctrGetOk envCtrFail.ctrWriteOk
          { freshSt with
            records := freshSt.records ++ [entryHeadache] }).1 = 0 ∧
        (confirm_and_save 3 envCtrFail entryHeadache freshSt).1 =
          { status := "saved", jury_reviewed := true } ∧
        (confirm_and_save 3 envCtrFail entryHeadache freshSt).2.counter =
          freshSt.counter) :=
  ⟨rfl, by decide,
    counter_failure_fires_audit 3 envCtrFail entryHeadache entryHeadache
      freshSt rfl rfl rfl rfl (by decide)⟩

/-- C3 counterexample: with modulus 3 and a failing counter write on a
fresh state, `increment()` returns 0 — and the audit *does* fire
(`jury_reviewed = true`), contradicting the claim that it does not. -/
theorem counter_failure_counterexample :
    (increment_jury_counter true false freshSt).1 = 0 ∧
      (confirm_and_save 3 envCtrFail entryHeadache
          freshSt).1.jury_reviewed = true := by
  refine ⟨rfl, ?_⟩
  decide
